import Mathlib

/-!
Verification of the news aggregation / caching / rendering pipeline of the
portfolio repository (src/js/news-fetcher.js), as a shallow embedding.
JavaScript strings become String, epoch milliseconds become Int, fallible
browser builtins become Option-valued models, and the stateful
fetch-display flow becomes a pure function from an explicit input state
(cache contents, clock, feed responses) to an output record (article
collection, issued requests, cache writes, displayed UI state).
-/

namespace Portfolio

/-- Cache lifetime in milliseconds (news-fetcher.js line 7). -/
def CACHE_DURATION_MS : Int := 3600000

/-- Maximum description length kept before the ellipsis (news-fetcher.js line 8). -/
def DESCRIPTION_MAX_LENGTH : Nat := 150

/-- Page size of the news grid (news-fetcher.js line 9). -/
def NEWS_PER_PAGE : Nat := 9

/-- Configured RSS feed URLs (news-fetcher.js lines 12-16). -/
def RSS_FEEDS : List String :=
  [ "https://techcrunch.com/tag/artificial-intelligence/feed/",
    "https://venturebeat.com/category/ai/feed/",
    "https://www.theverge.com/rss/ai-artificial-intelligence/index.xml" ]

/-- JavaScript's a || b on an optional string field: a missing (undefined)
or empty (falsy) string falls back to the default. -/
def jsOr (v : Option String) (d : String) : String :=
  match v with
  | some s => if s = "" then d else s
  | none => d

/-- JavaScript String.prototype.includes: substring containment test. -/
def includes (s sub : String) : Bool :=
  decide (List.IsInfix sub.toList s.toList)

/-- JavaScript String.prototype.toLowerCase over the character list; the
per-character lowering covers the ASCII letters, which is all the keyword
scan compares against. -/
def strLower (s : String) : String :=
  String.mk (s.toList.map Char.toLower)

/-- JavaScript String.prototype.substring(0, n) over the character list. -/
def strTake (s : String) (n : Nat) : String :=
  String.mk (s.toList.take n)

/-- The pieces of a parsed URL that the module reads: URL.protocol
(scheme, lowercased, with trailing colon) and URL.hostname. -/
structure URLParts where
  protocol : String
  hostname : String
deriving DecidableEq

/-- First character of a URL scheme must be a letter. -/
def isSchemeStart (c : Char) : Bool := c.isAlpha

/-- Subsequent scheme characters: letters, digits, plus, minus, dot. -/
def isSchemeChar (c : Char) : Bool := c.isAlphanum || c = '+' || c = '-' || c = '.'

/-- Scan the characters after the leading letter of a candidate scheme up to
the first colon; returns the remaining scheme characters and the rest. -/
def schemeScan : List Char → Option (List Char × List Char)
  | [] => none
  | c :: cs =>
    if c = ':' then some ([], cs)
    else if isSchemeChar c then
      match schemeScan cs with
      | some (acc, rest) => some (c :: acc, rest)
      | none => none
    else none

/-- Schemes the URL standard treats as special (they require a host). -/
def specialSchemes : List String := ["http", "https", "ws", "wss", "ftp", "file"]

/-- Characters that end the host portion of a URL. -/
def hostDelim (c : Char) : Bool := c = '/' || c = '?' || c = '#' || c = ':'

/-- Modelled from the spec: the WHATWG URL parser behind the browser builtin
new URL(url), reduced to the two fields this module observes (protocol and
hostname). A URL parses when it starts with a letter followed by scheme
characters and a colon; the scheme is lowercased. For the special schemes
(http, https, ws, wss, ftp, file) a nonempty host is required and is read
after any leading slashes up to a delimiter; other schemes (such as
javascript:) carry an opaque path and no host. Userinfo, ports,
IDNA/percent decoding and base-relative resolution are outside what the
code under test can observe through sanitizeURL/getHostname and are
omitted. -/
def urlParse (s : String) : Option URLParts :=
  match s.toList with
  | [] => none
  | c :: cs =>
    if isSchemeStart c then
      match schemeScan cs with
      | some (acc, rest) =>
        let scheme := strLower (String.mk (c :: acc))
        if specialSchemes.contains scheme then
          let hostChars := (rest.dropWhile (fun x => x = '/')).takeWhile (fun x => !hostDelim x)
          if hostChars = [] then none
          else some { protocol := scheme ++ ":", hostname := String.mk hostChars }
        else
          some { protocol := scheme ++ ":", hostname := "" }
      | none => none
    else none

/-- The fixed fallback URL (an Unsplash image) returned by sanitizeURL for
anything that is not a valid http/https URL (news-fetcher.js line 56). -/
def fallbackURL : String :=
  "https://images.unsplash.com/photo-1677442136019-21780ecad995?w=600&h=400&fit=crop"

/-- news-fetcher.js lines 45-57: return the input unchanged when it parses
as a URL with an http or https scheme, otherwise the fixed fallback. -/
def sanitizeURL (url : String) : String :=
  match urlParse url with
  | some parsed =>
    if parsed.protocol = "http:" || parsed.protocol = "https:" then url
    else fallbackURL
  | none => fallbackURL

/-- news-fetcher.js lines 62-68: hostname of the URL, or a fixed fallback
when the URL does not parse. -/
def getHostname (url : String) : String :=
  match urlParse url with
  | some parsed => parsed.hostname
  | none => "Unknown Source"

/-- Whether a string parses as a URL with an allowed (http or https) scheme;
this is exactly the condition under which sanitizeURL keeps its input. -/
def allowedScheme (s : String) : Bool :=
  match urlParse s with
  | some parsed => parsed.protocol = "http:" || parsed.protocol = "https:"
  | none => false

/-- Character-level tag stripper: drops every run from an opening angle
bracket to the next closing one. The flag records being inside a tag. -/
def stripTags : Bool → List Char → List Char
  | _, [] => []
  | false, c :: rest => if c = '<' then stripTags true rest else c :: stripTags false rest
  | true, c :: rest => if c = '>' then stripTags false rest else stripTags true rest

/-- Modelled from the spec: the DOM-based HTML stripping of stripHTML
(news-fetcher.js lines 27-31), which assigns the string to innerHTML of a
detached element and reads back textContent. For the tag-shaped inputs
exercised here this removes bracketed tags and keeps text; entity decoding
and malformed-markup recovery of a full HTML parser are omitted. -/
def stripHTML (s : String) : String :=
  String.mk (stripTags false s.toList)

/-- news-fetcher.js lines 73-91: keyword categorizer over the lowercased
concatenation of title and description. -/
def categorizeArticle (title description : String) : String :=
  let content := strLower (title ++ " " ++ description)
  if includes content "gpt" || includes content "llm" || includes content "language model" ||
     includes content "chatbot" || includes content "chatgpt" then "llm"
  else if includes content "computer vision" || includes content "image recognition" ||
     includes content "opencv" || includes content "visual" then "vision"
  else if includes content "ethics" || includes content "bias" ||
     includes content "responsible" || includes content "fairness" then "ethics"
  else if includes content "machine learning" || includes content "neural network" ||
     includes content "deep learning" || includes content "model" then "ml"
  else "ml"

/-- LLM keyword set as listed by the spec. -/
def llmKeywords : List String := ["gpt", "llm", "language model", "chatbot", "chatgpt"]

/-- Vision keyword set as listed by the spec. -/
def visionKeywords : List String := ["computer vision", "image recognition", "opencv", "visual"]

/-- Ethics keyword set as listed by the spec. -/
def ethicsKeywords : List String := ["ethics", "bias", "responsible", "fairness"]

/-- Generic ML keyword set as listed by the spec. -/
def mlKeywords : List String := ["machine learning", "neural network", "deep learning", "model"]

/-- Categorizer written from the specification text: case-insensitive scan of
the concatenated title and description against the fixed keyword sets in the
precedence order LLM, vision, ethics, generic ML, first match wins, with ml
as the default when nothing matches. Compared against categorizeArticle. -/
def specCategorize (title description : String) : String :=
  let content := strLower (title ++ " " ++ description)
  if llmKeywords.any (fun k => includes content k) then "llm"
  else if visionKeywords.any (fun k => includes content k) then "vision"
  else if ethicsKeywords.any (fun k => includes content k) then "ethics"
  else if mlKeywords.any (fun k => includes content k) then "ml"
  else "ml"

/-- A raw feed item as delivered by the feed-to-JSON endpoint; every field
is optional (undefined in JavaScript when missing). The enclosureLink field
models item.enclosure?.link. -/
structure Item where
  title : Option String
  description : Option String
  link : Option String
  pubDate : Option String
  author : Option String
  thumbnail : Option String
  enclosureLink : Option String
deriving DecidableEq

/-- One response per feed after the per-request catch handler: a status
string and an optional item list (news-fetcher.js lines 124-130). -/
structure FeedResult where
  status : String
  items : Option (List Item)
deriving DecidableEq

/-- A normalized article record (news-fetcher.js lines 138-146). -/
structure Article where
  title : String
  description : String
  link : String
  pubDate : String
  source : String
  image : String
  category : String
deriving DecidableEq

/-- news-fetcher.js lines 135-147: build one Article from a raw item.
The nowISO argument stands for new Date().toISOString() evaluated at
normalization time, used when the item has no publish date. -/
def normalizeItem (nowISO : String) (item : Item) : Article :=
  let category := categorizeArticle (jsOr item.title "") (jsOr item.description "")
  let link := jsOr item.link "#"
  { title := jsOr item.title "Untitled"
    description :=
      match item.description with
      | some d =>
        if d = "" then "No description available"
        else strTake (stripHTML d) DESCRIPTION_MAX_LENGTH ++ "..."
      | none => "No description available"
    link := link
    pubDate := jsOr item.pubDate nowISO
    source := jsOr item.author (getHostname link)
    image := jsOr item.thumbnail (jsOr item.enclosureLink fallbackURL)
    category := category }

/-- The articles contributed by one feed response: items are normalized only
when the response has status ok and an item list (news-fetcher.js line 134). -/
def feedArticles (nowISO : String) (r : FeedResult) : List Article :=
  if r.status == "ok" && r.items.isSome then (r.items.getD []).map (normalizeItem nowISO)
  else []

/-- news-fetcher.js lines 132-149: concatenation of the normalized items of
all feed responses, in response order. -/
def collectItems (nowISO : String) : List FeedResult → List Article
  | [] => []
  | r :: rs => feedArticles nowISO r ++ collectItems nowISO rs

/-- The sort comparator of news-fetcher.js line 152,
(a, b) => new Date(b.pubDate) - new Date(a.pubDate), over a date-parsing
model dp for the Date builtin. When either date is unparseable the
subtraction is NaN and the ECMAScript SortCompare operation coerces NaN
to plus zero, so those comparisons yield 0. -/
def jsCompare (dp : String → Option Int) (a b : Article) : Int :=
  match dp b.pubDate, dp a.pubDate with
  | some db, some da => db - da
  | _, _ => 0

/-- The ordering used to place article a no later than article b: the
comparator result is nonpositive. -/
def jsDateLe (dp : String → Option Int) (a b : Article) : Prop :=
  jsCompare dp a b ≤ 0

instance (dp : String → Option Int) : DecidableRel (jsDateLe dp) :=
  fun a b => inferInstanceAs (Decidable (jsCompare dp a b ≤ 0))

/-- The sort of news-fetcher.js line 152. Array.prototype.sort is a stable
sort; it is modelled by stable insertion sort, which coincides with every
stable sort whenever the comparator is a total preorder, and on two-element
arrays unconditionally. -/
def sortNews (dp : String → Option Int) (l : List Article) : List Article :=
  List.insertionSort (jsDateLe dp) l

/-- The seen-set filter of news-fetcher.js lines 155-160: keep an article
when its title has not been seen yet. -/
def dedupAux (seen : List String) : List Article → List Article
  | [] => []
  | a :: rest =>
    if a.title ∈ seen then dedupAux seen rest
    else a :: dedupAux (a.title :: seen) rest

/-- Deduplication by exact title, first occurrence kept. -/
def dedupByTitle (l : List Article) : List Article := dedupAux [] l

/-- The full aggregation of one fetch: normalize all feed responses, sort by
the date comparator, deduplicate by title (news-fetcher.js lines 132-160). -/
def aggregate (dp : String → Option Int) (nowISO : String) (results : List FeedResult) :
    List Article :=
  dedupByTitle (sortNews dp (collectItems nowISO results))

/-- The explicit input state of one fetchAINews run: the two localStorage
reads (cachedData as getItem plus JSON.parse outcome: none is a missing
key, some none a stored string that fails to parse, some (some l) one that
parses to l; cacheTime as getItem plus parseInt outcome, with some none a
stored string parsing to NaN), the clock in epoch milliseconds, the settled
feed responses, and the ISO clock string used by normalization. -/
structure FetchInput where
  cachedData : Option (Option (List Article))
  cacheTime : Option (Option Int)
  now : Int
  feedResults : List FeedResult
  nowISO : String

/-- The user-visible terminal state of a run: the news grid shown, or the
error banner (reachable in the code only from the catch block). -/
inductive Display
  | grid
  | error
deriving DecidableEq

/-- The observable outcome of one fetchAINews run: final article collection,
the feeds actually requested over the network, the cache write (articles
and timestamp) if any, and the displayed state. -/
structure FetchOutput where
  allNews : List Article
  requests : List String
  cacheWrite : Option (List Article × Int)
  display : Display

/-- The freshness test of news-fetcher.js line 111: both keys present
(truthy, which the nonempty JSON.stringify output guarantees for the data
key) and now minus the parsed time below the cache duration; a time string
parsing to NaN fails the comparison. -/
def cacheIsFresh (inp : FetchInput) : Bool :=
  inp.cachedData.isSome && inp.cacheTime.isSome &&
    (match inp.cacheTime with
     | some (some t) => decide (inp.now - t < CACHE_DURATION_MS)
     | _ => false)

/-- The network path of fetchAINews (news-fetcher.js lines 122-166): one
request per configured feed through the conversion endpoint (the request
list is modelled by the feed URLs themselves; the URL-encoding wrapper adds
nothing observable), aggregation of the responses, an unconditional cache
write of the result with the current time, and display of the grid. -/
def fetchPath (dp : String → Option Int) (inp : FetchInput) : FetchOutput :=
  let news := aggregate dp inp.nowISO inp.feedResults
  { allNews := news
    requests := RSS_FEEDS
    cacheWrite := some (news, inp.now)
    display := Display.grid }

/-- news-fetcher.js lines 96-172: use the cached copy when it is fresh and
parses (no request, no write); on a parse failure of fresh cache data fall
through to the network path, as after stale or absent cache data. The
embedding is total: no exception arises on any modelled input, so the
catch-block error display is never produced here. -/
def fetchAINewsModel (dp : String → Option Int) (inp : FetchInput) : FetchOutput :=
  if cacheIsFresh inp then
    match inp.cachedData with
    | some (some arts) =>
      { allNews := arts, requests := [], cacheWrite := none, display := Display.grid }
    | _ => fetchPath dp inp
  else fetchPath dp inp

/-- Whether the run answers from the cached copy: fresh and parseable. -/
def usesCachedCopy (inp : FetchInput) : Bool :=
  cacheIsFresh inp &&
    (match inp.cachedData with
     | some (some _) => true
     | _ => false)

/-- The category and search filters of displayNews (news-fetcher.js lines
186-197): category equality unless the filter is all, then case-insensitive
substring search over title or description unless the term is empty. -/
def filteredNews (allNews : List Article) (category search : String) : List Article :=
  let byCat := if category = "all" then allNews
    else allNews.filter (fun a => a.category == category)
  let searchTerm := strLower search
  if searchTerm = "" then byCat
  else byCat.filter (fun a =>
    includes (strLower a.title) searchTerm ||
    includes (strLower a.description) searchTerm)

/-- The pagination of displayNews (news-fetcher.js line 200): the first
currentPage times NEWS_PER_PAGE items of the filtered collection. -/
def visibleArticles (allNews : List Article) (category search : String) (page : Nat) :
    List Article :=
  (filteredNews allNews category search).take (page * NEWS_PER_PAGE)

/-- loadMoreNews (news-fetcher.js lines 319-322): advance the page cursor. -/
def loadMore (page : Nat) : Nat := page + 1

/-- The href given to the modal outbound link (news-fetcher.js line 364). -/
def modalLinkHref (a : Article) : String := sanitizeURL a.link

/-- The src given to a rendered card image (news-fetcher.js line 213). -/
def cardImageSrc (a : Article) : String := sanitizeURL a.image

/-- The publish date an article sorts by, under date model dp, defaulting
to 0 where unparseable (used only under parseability hypotheses). -/
def dval (dp : String → Option Int) (a : Article) : Int :=
  (dp a.pubDate).getD 0

/-- Descending-date order: b's date is at most a's. -/
def dvalGe (dp : String → Option Int) (a b : Article) : Prop :=
  dval dp b ≤ dval dp a

instance (dp : String → Option Int) : DecidableRel (dvalGe dp) :=
  fun a b => inferInstanceAs (Decidable (dval dp b ≤ dval dp a))

instance (dp : String → Option Int) : IsTotal Article (dvalGe dp) :=
  ⟨fun a b => (Int.le_total (dval dp b) (dval dp a)).imp id id⟩

instance (dp : String → Option Int) : IsTrans Article (dvalGe dp) :=
  ⟨fun _ _ _ h1 h2 => le_trans h2 h1⟩

/-- The publish date the specification assigns to an article: the parsed
date, with absent or unparseable dates treated as the current time. -/
def claimDate (dp : String → Option Int) (now : Int) (a : Article) : Int :=
  (dp a.pubDate).getD now

/-- ISO string for epoch millisecond 1000. -/
def iso1 : String := "1970-01-01T00:00:01.000Z"

/-- ISO string for epoch millisecond 2000. -/
def iso2 : String := "1970-01-01T00:00:02.000Z"

/-- ISO string for epoch millisecond 3000. -/
def iso3 : String := "1970-01-01T00:00:03.000Z"

/-- Modelled from the spec: the Date builtin's parse (new Date(s).getTime())
restricted to the strings exercised by the concrete runs below. The three
ISO-format strings denote exactly these epoch-millisecond values under the
ECMAScript Date Time String Format; every other string appearing in the
runs (such as "not a date") is in no recognized format and yields an
Invalid Date, modelled as none. -/
def testDateParse : String → Option Int := fun s =>
  if s = iso1 then some 1000
  else if s = iso2 then some 2000
  else if s = iso3 then some 3000
  else none

/-- The response shape produced by the per-feed catch handler when a feed
request fails (news-fetcher.js line 127). -/
def errResult : FeedResult := { status := "error", items := some [] }

/-- Concrete article used by cache fixtures. -/
def artA : Article :=
  { title := "a", description := "d", link := "https://example.com/", pubDate := iso1,
    source := "s", image := fallbackURL, category := "ml" }

/-- Feed item with a parseable date, listed first in the mixed-date run. -/
def itemY : Item :=
  { title := some "Y story", description := none, link := some "https://example.com/y",
    pubDate := some iso1, author := none, thumbnail := none, enclosureLink := none }

/-- Feed item whose stored date is in no recognized format. -/
def itemX : Item :=
  { title := some "X story", description := none, link := some "https://example.com/x",
    pubDate := some "not a date", author := none, thumbnail := none, enclosureLink := none }

/-- Duplicate-titled item with the earlier date. -/
def itemT1 : Item :=
  { title := some "t", description := none, link := some "https://example.com/1",
    pubDate := some iso1, author := none, thumbnail := none, enclosureLink := none }

/-- Duplicate-titled item with the later date. -/
def itemT3 : Item :=
  { title := some "t", description := none, link := some "https://example.com/3",
    pubDate := some iso3, author := none, thumbnail := none, enclosureLink := none }

/-- Successful feed response holding a parseable-dated item before an
unparseable-dated one. -/
def okFeedMixed : FeedResult := { status := "ok", items := some [itemY, itemX] }

/-- Successful feed response holding two items with the same title. -/
def okFeedDup : FeedResult := { status := "ok", items := some [itemT1, itemT3] }

/-- Run with no cache and every feed failed. -/
def inpNoCache : FetchInput :=
  { cachedData := none, cacheTime := none, now := 2000,
    feedResults := [errResult, errResult, errResult], nowISO := iso2 }

/-- Run with a stale cached article and every feed failed. -/
def inpStaleFail : FetchInput :=
  { cachedData := some (some [artA]), cacheTime := some (some 0), now := 3600000,
    feedResults := [errResult, errResult, errResult], nowISO := iso2 }

/-- Run with a fresh, parseable cached article. -/
def inpFresh : FetchInput :=
  { cachedData := some (some [artA]), cacheTime := some (some 0), now := 10,
    feedResults := [errResult, errResult, errResult], nowISO := iso2 }

/-- Run with a stale cached article (cache twice the duration old). -/
def inpStale : FetchInput :=
  { cachedData := some (some [artA]), cacheTime := some (some 0), now := 7200000,
    feedResults := [errResult, errResult, errResult], nowISO := iso2 }

/-- Run whose cached data is present and fresh but fails to parse. -/
def inpMalformed : FetchInput :=
  { cachedData := some none, cacheTime := some (some 0), now := 10,
    feedResults := [errResult, errResult, errResult], nowISO := iso2 }

/-- Run delivering the mixed parseable/unparseable items. -/
def inpMixed : FetchInput :=
  { cachedData := none, cacheTime := none, now := 2000,
    feedResults := [okFeedMixed, errResult, errResult], nowISO := iso2 }

/-- The feed item of the specification's normalization example. -/
def exItem : Item :=
  { title := some "New GPT model released", description := some "<p>OpenAI ships a model</p>",
    link := some "javascript:alert(1)", pubDate := none, author := none, thumbnail := none,
    enclosureLink := none }

/-- Article with a disallowed link scheme and an unparseable image URL. -/
def badArticle : Article :=
  { title := "b", description := "d", link := "javascript:alert(1)", pubDate := iso1,
    source := "s", image := "not a url", category := "ml" }

/-- Twenty-five-article collection for the pagination run. -/
def news25 : List Article := List.replicate 25 artA

end Portfolio

namespace Portfolio

/-! Helper lemmas about the URL sanitizer. -/

theorem sanitizeURL_of_not_allowed {s : String} (h : allowedScheme s = false) :
    sanitizeURL s = fallbackURL := by
  unfold allowedScheme at h
  unfold sanitizeURL
  cases hu : urlParse s with
  | none => rfl
  | some u =>
    rw [hu] at h
    simp only [] at h
    simp [h]

theorem sanitizeURL_of_allowed {s : String} (h : allowedScheme s = true) :
    sanitizeURL s = s := by
  unfold allowedScheme at h
  unfold sanitizeURL
  cases hu : urlParse s with
  | none => rw [hu] at h; cases h
  | some u =>
    rw [hu] at h
    simp only [] at h
    simp [h]

theorem allowedScheme_fallback : allowedScheme fallbackURL = true := by decide

end Portfolio

namespace Portfolio

/-- C10: sanitizeURL keeps its input exactly when the input parses as a URL
with an http or https scheme, and otherwise returns the one fixed fallback
URL; that same constant (the placeholder image URL) is what both a rendered
card image with an invalid image URL and the modal outbound link of an
article with an invalid link resolve to. -/
theorem c10_single_fallback (s : String) (a : Article) :
    (sanitizeURL s = s ↔ allowedScheme s = true) ∧
    (allowedScheme s = false → sanitizeURL s = fallbackURL) ∧
    (allowedScheme a.link = false → modalLinkHref a = fallbackURL) ∧
    (allowedScheme a.image = false → cardImageSrc a = fallbackURL) := by
  refine ⟨⟨fun he => ?_, fun h => sanitizeURL_of_allowed h⟩,
    fun h => sanitizeURL_of_not_allowed h,
    fun h => sanitizeURL_of_not_allowed h,
    fun h => sanitizeURL_of_not_allowed h⟩
  cases hb : allowedScheme s with
  | true => rfl
  | false =>
    have hfb : s = fallbackURL := by
      rw [← he, sanitizeURL_of_not_allowed hb]
    rw [hfb] at hb
    rw [allowedScheme_fallback] at hb
    cases hb

/-- C10 witness: on the article with a javascript: link and an unparseable
image URL, both the modal link and the card image fall back to the one
placeholder URL. -/
theorem c10_witness :
    allowedScheme badArticle.link = false ∧
    allowedScheme badArticle.image = false ∧
    modalLinkHref badArticle = fallbackURL ∧
    cardImageSrc badArticle = fallbackURL :=
  ⟨by decide, by decide,
   (c10_single_fallback badArticle.link badArticle).2.2.1 (by decide),
   (c10_single_fallback badArticle.image badArticle).2.2.2 (by decide)⟩

/-- C2 counterexample: on the specification's own example item, the Article
produced by normalization still holds the raw javascript: link — the link
field is neither an absolute http/https URL nor the safe placeholder, so the
claimed construction-time replacement does not happen. -/
theorem c2_counterexample :
    (normalizeItem iso2 exItem).link = "javascript:alert(1)" ∧
    allowedScheme (normalizeItem iso2 exItem).link = false ∧
    (normalizeItem iso2 exItem).link ≠ fallbackURL := by
  refine ⟨rfl, by decide, by decide⟩

/-- C2 amended: normalization stores the raw feed link (with the literal
hash placeholder when the item has none) in the Article's link field; the
safe-placeholder substitution happens where the link is used — the modal
href applies sanitizeURL to the stored link, so a link that is not a valid
http/https URL is presented as the fallback URL. -/
theorem c2_amended (nowISO : String) (item : Item) :
    (normalizeItem nowISO item).link = jsOr item.link "#" ∧
    modalLinkHref (normalizeItem nowISO item) = sanitizeURL (jsOr item.link "#") ∧
    (allowedScheme (jsOr item.link "#") = false →
      modalLinkHref (normalizeItem nowISO item) = fallbackURL) :=
  ⟨rfl, rfl, fun h => sanitizeURL_of_not_allowed h⟩

/-- C2 witness: the example item's javascript: link has a disallowed scheme,
and the modal presents the fallback URL for it. -/
theorem c2_witness :
    allowedScheme (jsOr exItem.link "#") = false ∧
    modalLinkHref (normalizeItem iso2 exItem) = fallbackURL :=
  ⟨by decide, (c2_amended iso2 exItem).2.2 (by decide)⟩

/-- C5: the code's categorizer agrees with the specification-side
categorizer (fixed keyword sets scanned case-insensitively over the
concatenated title and description, in the precedence order LLM, vision,
ethics, generic ML, first match wins, default ml), and any input containing
an LLM keyword is categorized llm regardless of the other sets. -/
theorem c5_categorize (title description : String) :
    categorizeArticle title description = specCategorize title description ∧
    (llmKeywords.any
        (fun k => includes (strLower (title ++ " " ++ description)) k) = true →
      categorizeArticle title description = "llm") := by
  have heq : categorizeArticle title description = specCategorize title description := by
    unfold categorizeArticle specCategorize
    simp only [llmKeywords, visionKeywords, ethicsKeywords, mlKeywords, List.any_cons,
      List.any_nil, Bool.or_false, Bool.or_assoc]
  refine ⟨heq, fun h => ?_⟩
  rw [heq]
  unfold specCategorize
  simp only [h, if_true]

/-- C5 witness: a title containing both an LLM keyword and a vision keyword
is categorized llm. -/
theorem c5_witness :
    llmKeywords.any
        (fun k => includes (strLower ("Visual GPT demo" ++ " " ++ "")) k) = true ∧
    visionKeywords.any
        (fun k => includes (strLower ("Visual GPT demo" ++ " " ++ "")) k) = true ∧
    categorizeArticle "Visual GPT demo" "" = "llm" :=
  ⟨by decide, by decide, (c5_categorize "Visual GPT demo" "").2 (by decide)⟩

end Portfolio

namespace Portfolio

/-- C8: the visible list is the first currentPage times pageSize items of the
filtered collection; its length is the minimum of that bound and the
filtered count, and on a 25-item filtered collection with the fixed page
size of 9 the visible counts after successive loadMore calls are 9, 18, 25
and then 25 again. -/
theorem c8_pagination (allNews : List Article) (category search : String) :
    (∀ page, visibleArticles allNews category search page =
      (filteredNews allNews category search).take (page * NEWS_PER_PAGE)) ∧
    (∀ page, (visibleArticles allNews category search page).length =
      min (page * NEWS_PER_PAGE) (filteredNews allNews category search).length) ∧
    ((filteredNews allNews category search).length = 25 →
      (visibleArticles allNews category search 1).length = 9 ∧
      (visibleArticles allNews category search (loadMore 1)).length = 18 ∧
      (visibleArticles allNews category search (loadMore (loadMore 1))).length = 25 ∧
      (visibleArticles allNews category search
        (loadMore (loadMore (loadMore 1)))).length = 25) := by
  refine ⟨fun page => rfl, fun page => ?_, fun h25 => ?_⟩
  · unfold visibleArticles
    exact List.length_take _ _
  · unfold visibleArticles loadMore
    simp only [List.length_take, h25, NEWS_PER_PAGE]
    omega

/-- C8 witness: the 25-article fixture with no category or search filter. -/
theorem c8_witness :
    (filteredNews news25 "all" "").length = 25 ∧
    ((visibleArticles news25 "all" "" 1).length = 9 ∧
     (visibleArticles news25 "all" "" (loadMore 1)).length = 18 ∧
     (visibleArticles news25 "all" "" (loadMore (loadMore 1))).length = 25 ∧
     (visibleArticles news25 "all" "" (loadMore (loadMore (loadMore 1)))).length = 25) :=
  ⟨by decide, (c8_pagination news25 "all" "").2.2 (by decide)⟩

/-- C4: with a present, parseable cache entry younger than the cache
duration the refresh issues no network request; with the cache absent, or
its timestamp at least the cache duration old, it requests every configured
feed once. -/
theorem c4_cache_gate (dp : String → Option Int) (inp : FetchInput) :
    (∀ arts t, inp.cachedData = some (some arts) → inp.cacheTime = some (some t) →
      inp.now - t < CACHE_DURATION_MS → (fetchAINewsModel dp inp).requests = []) ∧
    ((inp.cachedData = none ∨ inp.cacheTime = none ∨
      (∃ t, inp.cacheTime = some (some t) ∧ CACHE_DURATION_MS ≤ inp.now - t)) →
      (fetchAINewsModel dp inp).requests = RSS_FEEDS) := by
  constructor
  · intro arts t h1 h2 h3
    have hfresh : cacheIsFresh inp = true := by
      unfold cacheIsFresh
      rw [h1, h2]
      simp [h3]
    unfold fetchAINewsModel
    rw [hfresh, h1]
    rfl
  · intro h
    have hfresh : cacheIsFresh inp = false := by
      unfold cacheIsFresh
      rcases h with h1 | h2 | ⟨t, ht, hge⟩
      · rw [h1]; rfl
      · rw [h2]; simp
      · rw [ht]; simp [not_lt.mpr hge]
    unfold fetchAINewsModel
    rw [hfresh]
    rfl

/-- C4 witness: a fresh cached run issues no request; a stale cached run
requests every configured feed. -/
theorem c4_witness :
    (fetchAINewsModel testDateParse inpFresh).requests = [] ∧
    (fetchAINewsModel testDateParse inpStale).requests = RSS_FEEDS :=
  ⟨(c4_cache_gate testDateParse inpFresh).1 [artA] 0 rfl rfl (by decide),
   (c4_cache_gate testDateParse inpStale).2 (Or.inr (Or.inr ⟨0, rfl, by decide⟩))⟩

/-- C9: a stored cache value that fails to parse is treated as absent: the
run proceeds to request every configured feed and completes on the normal
grid path, surfacing no thrown error. -/
theorem c9_malformed_cache (dp : String → Option Int) (inp : FetchInput)
    (hmal : inp.cachedData = some none) :
    (fetchAINewsModel dp inp).requests = RSS_FEEDS ∧
    (fetchAINewsModel dp inp).display = Display.grid := by
  unfold fetchAINewsModel
  rw [hmal]
  by_cases h : cacheIsFresh inp = true <;> simp [h] <;> exact ⟨rfl, rfl⟩

/-- C9 witness: the malformed-but-fresh cache fixture fetches all feeds and
shows the grid. -/
theorem c9_witness :
    inpMalformed.cachedData = some none ∧
    (fetchAINewsModel testDateParse inpMalformed).requests = RSS_FEEDS ∧
    (fetchAINewsModel testDateParse inpMalformed).display = Display.grid :=
  ⟨rfl, (c9_malformed_cache testDateParse inpMalformed rfl).1,
   (c9_malformed_cache testDateParse inpMalformed rfl).2⟩

/-- C3 counterexample: a refresh whose every feed fails does not leave the
previously stored cache entry alone — on the stale-cache fixture holding one
article it overwrites the store with the empty collection and a new
timestamp. -/
theorem c3_counterexample :
    inpStaleFail.cachedData = some (some [artA]) ∧
    (fetchAINewsModel testDateParse inpStaleFail).cacheWrite = some ([], 3600000) ∧
    ([] : List Article) ≠ [artA] := by
  refine ⟨rfl, by decide, by decide⟩

/-- C3 amended: the cache entry is written at the end of every completed
network path, with whatever (possibly empty) collection aggregation
produced and the current time, regardless of whether any feed returned
usable data; only a run answered from the fresh parseable cached copy
leaves the store untouched. -/
theorem c3_amended (dp : String → Option Int) (inp : FetchInput) :
    (fetchAINewsModel dp inp).cacheWrite =
      if usesCachedCopy inp = true then none
      else some (aggregate dp inp.nowISO inp.feedResults, inp.now) := by
  unfold fetchAINewsModel usesCachedCopy
  by_cases hf : cacheIsFresh inp = true
  · rcases hd : inp.cachedData with _ | arts
    · simp [hf, hd, fetchPath]
    · rcases arts with _ | arts
      · simp [hf, hd, fetchPath]
      · simp [hf, hd]
  · simp [hf, fetchPath]

end Portfolio

namespace Portfolio

/-- A batch in which no feed reports status ok with an item list normalizes
to the empty collection. -/
theorem collectItems_eq_nil {nowISO : String} {results : List FeedResult}
    (h : ∀ r ∈ results, ¬(r.status = "ok" ∧ r.items.isSome = true)) :
    collectItems nowISO results = [] := by
  induction results with
  | nil => rfl
  | cons r rs ih =>
    have hr := h r (List.mem_cons_self r rs)
    have hcond : (r.status == "ok" && r.items.isSome) = false := by
      by_cases hs : r.status = "ok"
      · by_cases hi : r.items.isSome = true
        · exact absurd ⟨hs, hi⟩ hr
        · simp [hs, Bool.not_eq_true] at hi
          simp [hi]
      · simp [hs]
    unfold collectItems feedArticles
    rw [hcond]
    simpa using ih (fun x hx => h x (List.mem_cons_of_mem r hx))

/-- C1 counterexample: on the run with no cache and every feed failed, the
code does not surface the error state — it displays the (empty) grid, with
an empty collection, and even writes that empty collection to the cache. -/
theorem c1_counterexample :
    (∀ r ∈ inpNoCache.feedResults, r.status ≠ "ok") ∧
    inpNoCache.cachedData = none ∧
    (fetchAINewsModel testDateParse inpNoCache).display = Display.grid ∧
    (fetchAINewsModel testDateParse inpNoCache).display ≠ Display.error ∧
    (fetchAINewsModel testDateParse inpNoCache).allNews = [] ∧
    (fetchAINewsModel testDateParse inpNoCache).cacheWrite = some ([], 2000) := by
  decide

/-- C1 amended: when no feed returns usable data and no cache entry exists,
fetchAINews still completes on the normal path: it shows the grid (empty),
sets the collection to empty, and overwrites the cache with the empty
collection; the error state is reachable only from the exception handler,
not from feed failure. -/
theorem c1_amended (dp : String → Option Int) (inp : FetchInput)
    (hfeeds : ∀ r ∈ inp.feedResults, ¬(r.status = "ok" ∧ r.items.isSome = true))
    (hcache : inp.cachedData = none) :
    (fetchAINewsModel dp inp).display = Display.grid ∧
    (fetchAINewsModel dp inp).allNews = [] ∧
    (fetchAINewsModel dp inp).cacheWrite = some ([], inp.now) := by
  have hfresh : cacheIsFresh inp = false := by
    unfold cacheIsFresh
    rw [hcache]
    rfl
  have hagg : aggregate dp inp.nowISO inp.feedResults = [] := by
    unfold aggregate
    rw [collectItems_eq_nil hfeeds]
    rfl
  unfold fetchAINewsModel
  rw [hfresh]
  simp only [Bool.false_eq_true, if_false]
  unfold fetchPath
  rw [hagg]
  exact ⟨rfl, rfl, rfl⟩

/-- C1 witness: the amended statement applied to the no-cache all-failed
fixture. -/
theorem c1_witness :
    (∀ r ∈ inpNoCache.feedResults, ¬(r.status = "ok" ∧ r.items.isSome = true)) ∧
    (fetchAINewsModel testDateParse inpNoCache).display = Display.grid ∧
    (fetchAINewsModel testDateParse inpNoCache).allNews = [] ∧
    (fetchAINewsModel testDateParse inpNoCache).cacheWrite = some ([], inpNoCache.now) :=
  ⟨by decide, (c1_amended testDateParse inpNoCache (by decide) rfl).1,
   (c1_amended testDateParse inpNoCache (by decide) rfl).2.1,
   (c1_amended testDateParse inpNoCache (by decide) rfl).2.2⟩

end Portfolio

namespace Portfolio

/-- Ordered insertion is unchanged when the relation is replaced by one that
agrees with it between the inserted element and the list elements. -/
theorem orderedInsert_congr {r s : Article → Article → Prop}
    [DecidableRel r] [DecidableRel s] (a : Article) (l : List Article)
    (h : ∀ y ∈ l, (r a y ↔ s a y)) :
    List.orderedInsert r a l = List.orderedInsert s a l := by
  induction l with
  | nil => rfl
  | cons b bs ih =>
    simp only [List.orderedInsert]
    by_cases hb : r a b
    · rw [if_pos hb, if_pos ((h b (List.mem_cons_self b bs)).mp hb)]
    · rw [if_neg hb, if_neg (fun hs => hb ((h b (List.mem_cons_self b bs)).mpr hs)),
        ih (fun y hy => h y (List.mem_cons_of_mem b hy))]

/-- Insertion sort is unchanged when the relation is replaced by one that
agrees with it on all pairs drawn from the list. -/
theorem insertionSort_congr {r s : Article → Article → Prop}
    [DecidableRel r] [DecidableRel s] (l : List Article)
    (h : ∀ x ∈ l, ∀ y ∈ l, (r x y ↔ s x y)) :
    List.insertionSort r l = List.insertionSort s l := by
  induction l with
  | nil => rfl
  | cons a as ih =>
    simp only [List.insertionSort]
    rw [ih (fun x hx y hy =>
      h x (List.mem_cons_of_mem a hx) y (List.mem_cons_of_mem a hy))]
    exact orderedInsert_congr a _ (fun y hy =>
      h a (List.mem_cons_self a as) y
        (List.mem_cons_of_mem a ((List.mem_insertionSort s).mp hy)))

/-- The sort of the pipeline is a permutation of its input. -/
theorem sortNews_perm (dp : String → Option Int) (l : List Article) :
    List.Perm (sortNews dp l) l :=
  List.perm_insertionSort _ l

/-- When every element's stored date parses, the sorted list is pairwise
descending in parsed date: on such inputs the comparator is the total
preorder of reversed date order, so the stable sort produces a genuinely
sorted list. -/
theorem sortNews_pairwise (dp : String → Option Int) (l : List Article)
    (hp : ∀ x ∈ l, (dp x.pubDate).isSome = true) :
    (sortNews dp l).Pairwise (dvalGe dp) := by
  have hcongr : sortNews dp l = List.insertionSort (dvalGe dp) l := by
    apply insertionSort_congr
    intro x hx y hy
    obtain ⟨dx, hdx⟩ := Option.isSome_iff_exists.mp (hp x hx)
    obtain ⟨dy, hdy⟩ := Option.isSome_iff_exists.mp (hp y hy)
    unfold jsDateLe jsCompare dvalGe dval
    rw [hdx, hdy]
    simp only [Option.getD_some]
    omega
  rw [hcongr]
  exact List.sorted_insertionSort (dvalGe dp) l

/-- The seen-set filter yields a sublist of its input. -/
theorem dedupAux_sublist (seen : List String) (l : List Article) :
    List.Sublist (dedupAux seen l) l := by
  induction l generalizing seen with
  | nil => exact List.Sublist.refl []
  | cons a rest ih =>
    unfold dedupAux
    by_cases h : a.title ∈ seen
    · rw [if_pos h]
      exact (ih seen).cons a
    · rw [if_neg h]
      exact (ih (a.title :: seen)).cons₂ a

/-- No article with an already-seen title survives the seen-set filter. -/
theorem dedupAux_title_not_mem (T : String) (seen : List String) (l : List Article)
    (hT : T ∈ seen) : ∀ a ∈ dedupAux seen l, a.title ≠ T := by
  induction l generalizing seen with
  | nil =>
    intro a ha
    simp [dedupAux] at ha
  | cons b rest ih =>
    intro a ha
    unfold dedupAux at ha
    by_cases h : b.title ∈ seen
    · rw [if_pos h] at ha
      exact ih seen hT a ha
    · rw [if_neg h] at ha
      rcases List.mem_cons.mp ha with rfl | ha2
      · exact fun he => h (he ▸ hT)
      · exact ih (b.title :: seen) (List.mem_cons_of_mem _ hT) a ha2

/-- The articles of a given unseen title surviving the seen-set filter are
exactly the first input occurrence of that title (or none at all). -/
theorem dedupAux_filter_title (T : String) (seen : List String) (l : List Article)
    (hT : T ∉ seen) :
    (dedupAux seen l).filter (fun a => decide (a.title = T)) =
      match l.find? (fun a => decide (a.title = T)) with
      | some k => [k]
      | none => [] := by
  induction l generalizing seen with
  | nil => simp [dedupAux]
  | cons b rest ih =>
    by_cases hmem : b.title ∈ seen
    · have hbT : ¬ b.title = T := fun he => hT (he ▸ hmem)
      unfold dedupAux
      rw [if_pos hmem, List.find?_cons_of_neg _ (by simpa using hbT)]
      exact ih seen hT
    · by_cases hbT : b.title = T
      · unfold dedupAux
        rw [if_neg hmem, List.filter_cons_of_pos (by simpa using hbT),
          List.find?_cons_of_pos _ (by simpa using hbT)]
        have hrest : (dedupAux (b.title :: seen) rest).filter
            (fun a => decide (a.title = T)) = [] := by
          rw [List.filter_eq_nil_iff]
          intro a ha
          simp only [decide_eq_true_eq]
          exact dedupAux_title_not_mem T (b.title :: seen) rest
            (by rw [hbT]; exact List.mem_cons_self _ _) a ha
        rw [hrest]
      · unfold dedupAux
        rw [if_neg hmem, List.filter_cons_of_neg (by simpa using hbT),
          List.find?_cons_of_neg _ (by simpa using hbT)]
        refine ih (b.title :: seen) (fun hmem2 => ?_)
        rcases List.mem_cons.mp hmem2 with he | he
        · exact hbT he.symm
        · exact hT he

/-- In a pairwise-related list, the first element found by a predicate is
related to every element satisfying the predicate. -/
theorem find?_first_rel {R : Article → Article → Prop} (hrefl : ∀ x, R x x)
    (p : Article → Bool) (l : List Article) (hp : l.Pairwise R) (k : Article)
    (hk : l.find? p = some k) :
    ∀ b ∈ l, p b = true → R k b := by
  induction l with
  | nil => cases hk
  | cons x xs ih =>
    intro b hb hpb
    by_cases hx : p x = true
    · rw [List.find?_cons_of_pos _ hx] at hk
      have hkx : x = k := by injection hk
      rcases List.mem_cons.mp hb with rfl | hb2
      · exact hkx ▸ hrefl b
      · exact hkx ▸ (List.pairwise_cons.mp hp).1 b hb2
    · rw [List.find?_cons_of_neg _ hx] at hk
      rcases List.mem_cons.mp hb with rfl | hb2
      · exact absurd hpb hx
      · exact ih (List.pairwise_cons.mp hp).2 hk b hb2 hpb

end Portfolio

namespace Portfolio

/-- C7 counterexample: on the run delivering a parseable-dated item followed
by an item whose stored date is in no recognized format, the final
collection is not sorted descending under the claim's reading that an
unparseable publish date counts as the current time: the comparator returns
NaN, coerced to 0, so the unparseable-dated item keeps its position behind
an older item instead of sorting to the front as "now" would. -/
theorem c7_counterexample :
    ¬ (aggregate testDateParse iso2 inpMixed.feedResults).Pairwise
      (fun a b => claimDate testDateParse 2000 b ≤ claimDate testDateParse 2000 a) := by
  decide

/-- C7 amended: whenever every stored publish date of the normalized
collection parses (absent dates were already replaced by the fetch-time
timestamp at normalization, so they parse), the final collection is sorted
by parsed publish date descending — every earlier article's date is at
least every later one's. A date string that is present but unparseable is
not treated as the current time: it compares equal to everything, so the
descending order is only guaranteed on parseable dates. -/
theorem c7_amended (dp : String → Option Int) (nowISO : String)
    (results : List FeedResult)
    (hp : ∀ x ∈ collectItems nowISO results, (dp x.pubDate).isSome = true) :
    (aggregate dp nowISO results).Pairwise
      (fun a b => dval dp b ≤ dval dp a) := by
  have hs : (sortNews dp (collectItems nowISO results)).Pairwise (dvalGe dp) :=
    sortNews_pairwise dp _ hp
  exact List.Pairwise.sublist (dedupAux_sublist [] _) hs

/-- C7 witness: the duplicate-title run (all of whose dates parse) is
pairwise descending after aggregation. -/
theorem c7_witness :
    (∀ x ∈ collectItems iso2 [okFeedDup, errResult, errResult],
      (testDateParse x.pubDate).isSome = true) ∧
    (aggregate testDateParse iso2 [okFeedDup, errResult, errResult]).Pairwise
      (fun a b => dval testDateParse b ≤ dval testDateParse a) :=
  ⟨by decide,
   c7_amended testDateParse iso2 [okFeedDup, errResult, errResult] (by decide)⟩

/-- C6: in a run where every stored publish date parses and some normalized
item bears the title T, the final collection contains exactly one article
with title T — the first occurrence in the sorted order — and its parsed
publish date is at least the date of every normalized item with that title,
so the later-dated duplicate is the one kept. -/
theorem c6_dedup_keeps_latest (dp : String → Option Int) (nowISO : String)
    (results : List FeedResult) (T : String)
    (hp : ∀ x ∈ collectItems nowISO results, (dp x.pubDate).isSome = true)
    (hex : ∃ x ∈ collectItems nowISO results, x.title = T) :
    ∃ k, (aggregate dp nowISO results).filter (fun a => decide (a.title = T)) = [k] ∧
      ∀ b ∈ collectItems nowISO results, b.title = T →
        dval dp b ≤ dval dp k := by
  have hperm : List.Perm (sortNews dp (collectItems nowISO results))
      (collectItems nowISO results) := sortNews_perm dp _
  have hpair : (sortNews dp (collectItems nowISO results)).Pairwise (dvalGe dp) :=
    sortNews_pairwise dp _ hp
  obtain ⟨x, hxL, hxT⟩ := hex
  have hxS : x ∈ sortNews dp (collectItems nowISO results) := hperm.mem_iff.mpr hxL
  obtain ⟨k, hk⟩ : ∃ k, (sortNews dp (collectItems nowISO results)).find?
      (fun a => decide (a.title = T)) = some k := by
    cases hf : (sortNews dp (collectItems nowISO results)).find?
        (fun a => decide (a.title = T)) with
    | some k => exact ⟨k, rfl⟩
    | none =>
      have := List.find?_eq_none.mp hf x hxS
      simp [hxT] at this
  refine ⟨k, ?_, ?_⟩
  · have hchar := dedupAux_filter_title T []
      (sortNews dp (collectItems nowISO results)) (by simp)
    rw [hk] at hchar
    exact hchar
  · intro b hbL hbT
    have hbS : b ∈ sortNews dp (collectItems nowISO results) := hperm.mem_iff.mpr hbL
    exact find?_first_rel (fun y => le_refl (dval dp y)) _ _ hpair k hk b hbS
      (by simpa using hbT)

/-- C6 witness: in the run with two items titled t (dated at milliseconds
1000 and 3000), exactly one article titled t survives and its date
dominates both. -/
theorem c6_witness :
    (∀ x ∈ collectItems iso2 [okFeedDup, errResult, errResult],
      (testDateParse x.pubDate).isSome = true) ∧
    (∃ x ∈ collectItems iso2 [okFeedDup, errResult, errResult], x.title = "t") ∧
    (∃ k, (aggregate testDateParse iso2 [okFeedDup, errResult, errResult]).filter
        (fun a => decide (a.title = "t")) = [k] ∧
      ∀ b ∈ collectItems iso2 [okFeedDup, errResult, errResult], b.title = "t" →
        dval testDateParse b ≤ dval testDateParse k) :=
  ⟨by decide, by decide,
   c6_dedup_keeps_latest testDateParse iso2 [okFeedDup, errResult, errResult] "t"
     (by decide) (by decide)⟩

end Portfolio
